import Mathlib

/-!
Verification of the batch medical-report analysis pipeline in `src/app.py`
(healthAI).  Python strings are embedded as `List Char`; the external
collaborators (PyPDF2, pandas, the generative-AI client) are modelled as
oracles describing every behavior the surrounding code can observe:
the returned value, the absence of usable content, or a raised exception
that the code's `except` blocks catch.  Every definition mirrors the
corresponding Python function; the theorems at the end settle the
specification claims.
-/

namespace HealthAI

/-- Python strings, embedded as lists of characters. -/
abbrev PyStr := List Char

/-- Convert a Lean string literal to the embedded representation. -/
def pys (s : String) : PyStr := s.data

/-- The characters removed by Python `str.strip()`. -/
def isSpace (c : Char) : Bool :=
  c = ' ' || c = '\t' || c = '\n' || c = '\r' || c = '\x0b' || c = '\x0c'

/-- Python `s.strip()`: drop whitespace from both ends. -/
def strip (s : PyStr) : PyStr :=
  ((s.dropWhile isSpace).reverse.dropWhile isSpace).reverse

/-- Python `s.split(",")`: split on every literal comma.  Adjacent commas
produce empty segments, and the empty string yields one empty segment.
In the non-comma branch the current character is prepended to the first
segment of the recursive result (`splitComma` never returns `[]`,
see `splitComma_ne_nil`). -/
def splitComma : PyStr → List PyStr
  | [] => [[]]
  | c :: cs =>
    if c = ',' then [] :: splitComma cs
    else (c :: (splitComma cs).headD []) :: (splitComma cs).tail

/-- A Python value as seen by `sanitize_response`: either a `str`, or some
non-string value (a failure marker object, `None`, a list, ...), of which
only the failing `isinstance(response, str)` test is observable. -/
inductive PyVal where
  | pstr (s : PyStr)
  | nonStr (tag : Nat)
deriving DecidableEq

/-- `sanitize_response` from `src/app.py` lines 62-65:
`[item.strip() for item in response.split(",") if item.strip()]` when the
input is a string, and `[]` for any non-string value.  The source returns
a Python *list*, in segment order, with duplicates preserved. -/
def sanitize_response : PyVal → List PyStr
  | .pstr s =>
    (splitComma s).filterMap fun item =>
      if strip item = [] then none else some (strip item)
  | .nonStr _ => []

/-- Python `",".join(l)`; used to state the sanitizer round-trip claim. -/
def joinComma : List PyStr → PyStr
  | [] => []
  | [x] => x
  | x :: y :: t => x ++ ',' :: joinComma (y :: t)

/-- The observable behaviors of one `model.generate_content(text + prompt)`
call as branched on by `analyze_content`: a response whose first candidate
carries answer text, a falsy response or one without candidates, or an
exception (transport error, missing parts, ...) caught by the bare
`except`. -/
inductive SvcResult where
  | ok (answer : PyStr)
  | noCandidates
  | exn (msg : PyStr)
deriving DecidableEq

/-- `analyze_content` from `src/app.py` lines 50-59, instrumented with the
list of prompt strings sent to the external service.  The source calls
`generate_content` exactly once, unconditionally, with `text + prompt`;
the three match arms are the source's three return paths. -/
def analyze_contentC (svc : PyStr → SvcResult) (text prompt : PyStr) :
    PyStr × List PyStr :=
  (match svc (text ++ prompt) with
   | .ok answer => answer
   | .noCandidates => pys "No recommendations available for the given input."
   | .exn e => pys "Error during analysis: " ++ e,
   [text ++ prompt])

/-- The value returned by `analyze_content` (first component of the
instrumented version). -/
def analyze_content (svc : PyStr → SvcResult) (text prompt : PyStr) : PyStr :=
  (analyze_contentC svc text prompt).1

def promptAbnormalities : PyStr := pys "List all abnormalities."

def promptConditions : PyStr := pys "Identify conditions of concern."

def promptMedications : PyStr := pys "Suggest medications with reasons."

def promptSupplements : PyStr := pys "Recommend food supplements with benefits."

def promptActivities : PyStr := pys "Suggest suitable activities with benefits."

/-- The fixed battery of five analytical queries (spec section 6). -/
inductive Query where
  | abnormalities
  | conditions
  | medications
  | supplements
  | activities
deriving DecidableEq

/-- The fixed prompt attached to each query in `src/app.py` lines 131-135. -/
def Query.prompt : Query → PyStr
  | .abnormalities => promptAbnormalities
  | .conditions => promptConditions
  | .medications => promptMedications
  | .supplements => promptSupplements
  | .activities => promptActivities

/-- The per-document analysis result: the five raw answers computed at
`src/app.py` lines 131-135. -/
structure AnalysisResult where
  abnormalities : PyStr
  conditions : PyStr
  medications : PyStr
  supplements : PyStr
  activities : PyStr
deriving DecidableEq

/-- Access the entry of an `AnalysisResult` for a given query. -/
def AnalysisResult.entry (r : AnalysisResult) : Query → PyStr
  | .abnormalities => r.abnormalities
  | .conditions => r.conditions
  | .medications => r.medications
  | .supplements => r.supplements
  | .activities => r.activities

/-- The five independent `analyze_content` calls of `src/app.py`
lines 131-135 (the Document Analyzer). -/
def analyzeDocument (svc : PyStr → SvcResult) (text : PyStr) : AnalysisResult :=
  { abnormalities := analyze_content svc text promptAbnormalities
    conditions := analyze_content svc text promptConditions
    medications := analyze_content svc text promptMedications
    supplements := analyze_content svc text promptSupplements
    activities := analyze_content svc text promptActivities }

/-- All prompts sent to the external service while analyzing one
document's text (concatenation of the five per-query call traces). -/
def analyzeDocumentCalls (svc : PyStr → SvcResult) (text : PyStr) : List PyStr :=
  (analyze_contentC svc text promptAbnormalities).2 ++
  (analyze_contentC svc text promptConditions).2 ++
  (analyze_contentC svc text promptMedications).2 ++
  (analyze_contentC svc text promptSupplements).2 ++
  (analyze_contentC svc text promptActivities).2

/-- The page loop of `extract_text_from_pdf`: concatenate each page's
extracted text, skipping falsy (empty) page results. -/
def concatPages (pages : List PyStr) : PyStr :=
  pages.foldl (fun acc p => if p = [] then acc else acc ++ p) []

/-- `extract_text_from_pdf` from `src/app.py` lines 35-47.  The oracle is
`Except.error e` when `PyPDF2` raises (with message `e`), and
`Except.ok pages` when the page loop runs; a whitespace-only total text
raises `ValueError("No readable text found in the PDF.")`, which the
surrounding `except` converts to the same error-string shape. -/
def extract_text_from_pdf (raw : Except PyStr (List PyStr)) : PyStr :=
  match raw with
  | .error e => pys "Error extracting text from PDF: " ++ e
  | .ok pages =>
    if strip (concatPages pages) = [] then
      pys "Error extracting text from PDF: No readable text found in the PDF."
    else concatPages pages

/-- A parsed CSV file as observed by the code: `pd.read_csv(...).empty`
and `pd.read_csv(...).to_string(index=False)`. -/
structure CsvTable where
  isEmpty : Bool
  toStr : PyStr
deriving DecidableEq

instance {α β : Type} [DecidableEq α] [DecidableEq β] :
    DecidableEq (Except α β) := fun x y =>
  match x, y with
  | Except.error a, Except.error b =>
    if h : a = b then Decidable.isTrue (by rw [h])
    else Decidable.isFalse (fun hc => h (by injection hc))
  | Except.error _, Except.ok _ => Decidable.isFalse (fun hc => by injection hc)
  | Except.ok _, Except.error _ => Decidable.isFalse (fun hc => by injection hc)
  | Except.ok a, Except.ok b =>
    if h : a = b then Decidable.isTrue (by rw [h])
    else Decidable.isFalse (fun hc => h (by injection hc))

/-- One uploaded file: its name (the code dispatches on the
`.pdf` / `.csv` name endings) together with oracles for the two
operations the code may apply to it, `PyPDF2.PdfReader` + the page loop
(`pdfExtract`) and `pd.read_csv` (`csvParse`); `Except.error` means the
library call raised, with the rendered exception message. -/
structure UploadedFile where
  name : PyStr
  pdfExtract : Except PyStr (List PyStr)
  csvParse : Except PyStr CsvTable
deriving DecidableEq

/-- Python `s.endswith(suffix)`. -/
def endsWithP (s suffix : PyStr) : Bool :=
  decide (s.reverse.take suffix.length = suffix.reverse)

/-- The extraction phase of the per-file loop body, `src/app.py`
lines 113-127: `.ok (some text)` when `pdf_text` is set to `text`,
`.ok none` when it stays `None` (name matches neither ending), and
`.error e` when an exception with message `e` reaches the per-file
`except` (a `pd.read_csv` failure, or the explicit
`ValueError("CSV file is empty.")`). -/
def extractPhase (f : UploadedFile) : Except PyStr (Option PyStr) :=
  if endsWithP f.name (pys ".pdf") then
    .ok (some (extract_text_from_pdf f.pdfExtract))
  else if endsWithP f.name (pys ".csv") then
    match f.csvParse with
    | .error e => .error e
    | .ok t =>
      if t.isEmpty then .error (pys "CSV file is empty.") else .ok (some t.toStr)
  else .ok none

/-- The observable per-file outcome of one loop iteration: per-document
results were rendered (`analyzed`), `st.error` was shown (`errorShown`),
or nothing happened because `pdf_text` stayed falsy (`skipped`). -/
inductive Outcome where
  | analyzed (result : AnalysisResult)
  | errorShown (msg : PyStr)
  | skipped
deriving DecidableEq

/-- The `group_recommendations` dictionary of `src/app.py` lines 103-109:
two Python sets and three Python lists. -/
structure GroupRecommendations where
  common_abnormalities : Finset PyStr
  common_conditions : Finset PyStr
  medications : List PyStr
  supplements : List PyStr
  activities : List PyStr
deriving DecidableEq

/-- The initial aggregate (lines 103-109). -/
def emptyGroup : GroupRecommendations := ⟨∅, ∅, [], [], []⟩

/-- The fold of one analyzed document into the aggregate, `src/app.py`
lines 144-148: `set.update(sanitize_response(...))` on the two set fields
and `list.append(...)` of the raw answers on the three list fields. -/
def foldDoc (g : GroupRecommendations)
    (abnormalities conditions medications supplements activities : PyStr) :
    GroupRecommendations :=
  { common_abnormalities :=
      g.common_abnormalities ∪ (sanitize_response (.pstr abnormalities)).toFinset
    common_conditions :=
      g.common_conditions ∪ (sanitize_response (.pstr conditions)).toFinset
    medications := g.medications ++ [medications]
    supplements := g.supplements ++ [supplements]
    activities := g.activities ++ [activities] }

/-- One iteration of the per-file loop, `src/app.py` lines 111-151:
extraction phase, then (inside the same `try`) the truthiness guard
`if pdf_text:`, the five `analyze_content` calls, and the fold; a caught
exception shows an error and leaves the aggregate untouched. -/
def processFile (svc : PyStr → SvcResult) (g : GroupRecommendations)
    (f : UploadedFile) : Outcome × GroupRecommendations :=
  match extractPhase f with
  | .error e => (.errorShown e, g)
  | .ok none => (.skipped, g)
  | .ok (some text) =>
    if text = [] then (.skipped, g)
    else
      let abnormalities := analyze_content svc text promptAbnormalities
      let conditions := analyze_content svc text promptConditions
      let medications := analyze_content svc text promptMedications
      let supplements := analyze_content svc text promptSupplements
      let activities := analyze_content svc text promptActivities
      (.analyzed ⟨abnormalities, conditions, medications, supplements, activities⟩,
       foldDoc g abnormalities conditions medications supplements activities)

/-- Accumulate one file into the running outcome list and aggregate. -/
def stepBatch (svc : PyStr → SvcResult)
    (acc : List Outcome × GroupRecommendations) (f : UploadedFile) :
    List Outcome × GroupRecommendations :=
  (acc.1 ++ [(processFile svc acc.2 f).1], (processFile svc acc.2 f).2)

/-- The whole batch loop of `batch_report_analyzer_page` over the uploaded
files, in upload order, starting from the empty aggregate.  The first
component lists the per-file observable outcomes in input order. -/
def runBatch (svc : PyStr → SvcResult) (files : List UploadedFile) :
    List Outcome × GroupRecommendations :=
  files.foldl (stepBatch svc) ([], emptyGroup)

/-- The outcome a file produces; it does not depend on the aggregate
(proved in `processFile_eq`). -/
def fileOutcome (svc : PyStr → SvcResult) (f : UploadedFile) : Outcome :=
  (processFile svc emptyGroup f).1

/-- The aggregate update an outcome causes: only `analyzed` outcomes
touch the aggregate. -/
def applyOutcome (g : GroupRecommendations) : Outcome → GroupRecommendations
  | .analyzed r =>
    foldDoc g r.abnormalities r.conditions r.medications r.supplements r.activities
  | .errorShown _ => g
  | .skipped => g

/-- Whether an outcome records a document that was analyzed. -/
def isAnalyzedB : Outcome → Bool
  | .analyzed _ => true
  | .errorShown _ => false
  | .skipped => false

/-- Sanity condition on a CSV oracle: a successfully parsed non-empty
dataframe renders to a non-empty string (true of `pandas.to_string`,
which always prints at least the header row). -/
def csvToStrOkB (x : Except PyStr CsvTable) : Bool :=
  match x with
  | .error _ => true
  | .ok t => t.isEmpty || !t.toStr.isEmpty

/-- A deterministic stub service that answers `X` to every prompt. -/
def svcX : PyStr → SvcResult := fun _ => SvcResult.ok (pys "X")

/-- A stub service whose every call raises with message `boom`. -/
def svcErr : PyStr → SvcResult := fun _ => SvcResult.exn (pys "boom")

/-- A PDF upload whose extraction raises (e.g. an unreadable file). -/
def badPdfFile : UploadedFile :=
  { name := pys "scan.pdf"
    pdfExtract := Except.error (pys "boom")
    csvParse := Except.error [] }

/-- A PDF upload that extracts the text `hello`. -/
def goodPdfFile : UploadedFile :=
  { name := pys "r.pdf"
    pdfExtract := Except.ok [pys "hello"]
    csvParse := Except.error [] }

/-- A CSV upload whose parsed dataframe is empty. -/
def emptyCsvFile : UploadedFile :=
  { name := pys "e.csv"
    pdfExtract := Except.error []
    csvParse := Except.ok ⟨true, pys "c"⟩ }

/-- A CSV upload that parses to a non-empty dataframe rendering to the
empty string (unreachable for real pandas; used to exercise the
`if pdf_text:` guard on falsy text). -/
def blankCsvFile : UploadedFile :=
  { name := pys "b.csv"
    pdfExtract := Except.error []
    csvParse := Except.ok ⟨false, []⟩ }

/-! ### Helper lemmas about `strip` -/

lemma dropWhile_idem (p : Char → Bool) (l : List Char) :
    List.dropWhile p (List.dropWhile p l) = List.dropWhile p l := by
  induction l with
  | nil => rfl
  | cons a t ih =>
    by_cases h : p a = true
    · simp [List.dropWhile_cons, h, ih]
    · simp [List.dropWhile_cons, h]

lemma head?_dropWhile {p : Char → Bool} {l : List Char} {a : Char}
    (h : (List.dropWhile p l).head? = some a) : p a = false := by
  induction l with
  | nil => simp [List.dropWhile] at h
  | cons b t ih =>
    by_cases hb : p b = true
    · rw [List.dropWhile_cons, if_pos hb] at h
      exact ih h
    · rw [List.dropWhile_cons, if_neg hb] at h
      simp only [List.head?_cons, Option.some.injEq] at h
      subst h
      exact eq_false_of_ne_true hb

lemma dropWhile_of_head?_false {p : Char → Bool} {l : List Char} {a : Char}
    (h : l.head? = some a) (ha : p a = false) : List.dropWhile p l = l := by
  cases l with
  | nil => rfl
  | cons b t =>
    simp only [List.head?_cons, Option.some.injEq] at h
    subst h
    rw [List.dropWhile_cons, if_neg (by simp [ha])]

lemma getLast?_dropWhile {p : Char → Bool} {l : List Char}
    (h : List.dropWhile p l ≠ []) :
    (List.dropWhile p l).getLast? = l.getLast? := by
  obtain ⟨t, ht⟩ := List.dropWhile_suffix (l := l) p
  conv_rhs => rw [← ht]
  rw [List.getLast?_append]
  cases hg : (List.dropWhile p l).getLast? with
  | none => exact absurd (List.getLast?_eq_none_iff.mp hg) h
  | some y => rfl

lemma dropWhile_strip (s : PyStr) :
    List.dropWhile isSpace (strip s) = strip s := by
  by_cases h : List.dropWhile isSpace ((List.dropWhile isSpace s).reverse) = []
  · unfold strip
    rw [h]
    rfl
  · have h1 : (strip s).head? =
        (List.dropWhile isSpace ((List.dropWhile isSpace s).reverse)).getLast? := by
      unfold strip
      rw [List.head?_reverse]
    rw [getLast?_dropWhile h, List.getLast?_reverse] at h1
    cases hh : (List.dropWhile isSpace s).head? with
    | none =>
      rw [List.head?_eq_none_iff] at hh
      rw [hh] at h
      simp at h
    | some a =>
      rw [hh] at h1
      exact dropWhile_of_head?_false h1 (head?_dropWhile hh)

lemma strip_idem (s : PyStr) : strip (strip s) = strip s := by
  have h0 : strip (strip s)
      = ((List.dropWhile isSpace (strip s)).reverse.dropWhile isSpace).reverse := rfl
  rw [h0, dropWhile_strip]
  have h1 : (strip s).reverse
      = List.dropWhile isSpace ((List.dropWhile isSpace s).reverse) :=
    List.reverse_reverse _
  rw [h1, dropWhile_idem, ← h1, List.reverse_reverse]

lemma mem_of_mem_strip {c : Char} {s : PyStr} (h : c ∈ strip s) : c ∈ s := by
  unfold strip at h
  rw [List.mem_reverse] at h
  have h2 := List.IsSuffix.mem h (List.dropWhile_suffix isSpace)
  rw [List.mem_reverse] at h2
  exact List.IsSuffix.mem h2 (List.dropWhile_suffix isSpace)

/-! ### Helper lemmas about `splitComma`, `joinComma` and the sanitizer -/

lemma splitComma_ne_nil (s : PyStr) : splitComma s ≠ [] := by
  cases s with
  | nil => simp [splitComma]
  | cons c cs =>
    by_cases h : c = ','
    · simp [splitComma, h]
    · simp [splitComma, h]

lemma splitComma_cons_comma (cs : PyStr) :
    splitComma (',' :: cs) = [] :: splitComma cs := by
  simp [splitComma]

lemma splitComma_cons_ne_eq {c : Char} {cs : PyStr} {h : PyStr} {t : List PyStr}
    (hc : c ≠ ',') (he : splitComma cs = h :: t) :
    splitComma (c :: cs) = (c :: h) :: t := by
  simp [splitComma, hc, he]

lemma splitComma_no_comma {s : PyStr} (h : ',' ∉ s) : splitComma s = [s] := by
  induction s with
  | nil => rfl
  | cons c cs ih =>
    have hc : c ≠ ',' := fun he => h (by rw [he]; exact List.mem_cons_self _ _)
    have hcs : ',' ∉ cs := fun hm => h (List.mem_cons_of_mem _ hm)
    rw [splitComma_cons_ne_eq hc (ih hcs)]

lemma splitComma_mem_no_comma (s : PyStr) : ∀ seg ∈ splitComma s, ',' ∉ seg := by
  induction s with
  | nil =>
    intro seg hseg
    simp [splitComma] at hseg
    subst hseg
    simp
  | cons c cs ih =>
    intro seg hseg
    by_cases hc : c = ','
    · subst hc
      rw [splitComma_cons_comma] at hseg
      rcases List.mem_cons.mp hseg with h1 | h1
      · subst h1
        simp
      · exact ih seg h1
    · cases he : splitComma cs with
      | nil => exact absurd he (splitComma_ne_nil cs)
      | cons h t =>
        rw [splitComma_cons_ne_eq hc he] at hseg
        rcases List.mem_cons.mp hseg with h1 | h1
        · subst h1
          intro hmem
          rcases List.mem_cons.mp hmem with h2 | h2
          · exact hc h2.symm
          · exact ih h (by rw [he]; exact List.mem_cons_self _ _) h2
        · exact ih seg (by rw [he]; exact List.mem_cons_of_mem _ h1)

lemma splitComma_append_comma {x : PyStr} (hx : ',' ∉ x) (r : PyStr) :
    splitComma (x ++ ',' :: r) = x :: splitComma r := by
  induction x with
  | nil => simpa using splitComma_cons_comma r
  | cons c x' ih =>
    have hc : c ≠ ',' := fun he => hx (by rw [he]; exact List.mem_cons_self _ _)
    have hx' : ',' ∉ x' := fun hm => hx (List.mem_cons_of_mem _ hm)
    rw [List.cons_append, splitComma_cons_ne_eq hc (ih hx')]

lemma joinComma_cons_cons (x y : PyStr) (t : List PyStr) :
    joinComma (x :: y :: t) = x ++ ',' :: joinComma (y :: t) := rfl

lemma splitComma_joinComma {l : List PyStr} (hne : l ≠ [])
    (hnc : ∀ x ∈ l, ',' ∉ x) : splitComma (joinComma l) = l := by
  induction l with
  | nil => exact absurd rfl hne
  | cons x t ih =>
    cases t with
    | nil => exact splitComma_no_comma (hnc x (List.mem_cons_self _ _))
    | cons y t' =>
      rw [joinComma_cons_cons, splitComma_append_comma (hnc x (List.mem_cons_self _ _))]
      rw [ih (by simp) (fun z hz => hnc z (List.mem_cons_of_mem _ hz))]

lemma sanitize_eq (s : PyStr) :
    sanitize_response (.pstr s) = (splitComma s).filterMap
      (fun item => if strip item = [] then none else some (strip item)) := rfl

lemma mem_sanitize {x s : PyStr}
    (h : x ∈ sanitize_response (.pstr s)) : strip x = x ∧ x ≠ [] ∧ ',' ∉ x := by
  simp only [sanitize_response] at h
  rw [List.mem_filterMap] at h
  obtain ⟨item, hitem, hf⟩ := h
  by_cases hs : strip item = []
  · rw [if_pos hs] at hf
    exact absurd hf (by simp)
  · rw [if_neg hs] at hf
    have hx : x = strip item := by
      injection hf with h'
      exact h'.symm
    subst hx
    refine ⟨strip_idem item, hs, ?_⟩
    intro hm
    exact splitComma_mem_no_comma s item hitem (mem_of_mem_strip hm)

lemma filterMap_id_of {l : List PyStr} {f : PyStr → Option PyStr}
    (h : ∀ x ∈ l, f x = some x) : l.filterMap f = l := by
  induction l with
  | nil => rfl
  | cons a t ih =>
    simp only [List.filterMap_cons, h a (List.mem_cons_self _ _)]
    rw [ih (fun x hx => h x (List.mem_cons_of_mem _ hx))]

/-! ### Helper lemmas about the analyzer and the batch loop -/

lemma entry_eq (svc : PyStr → SvcResult) (text : PyStr) (q : Query) :
    (analyzeDocument svc text).entry q = analyze_content svc text q.prompt := by
  cases q <;> rfl

lemma analyze_content_exn {svc : PyStr → SvcResult} {text prompt e : PyStr}
    (h : svc (text ++ prompt) = .exn e) :
    analyze_content svc text prompt = pys "Error during analysis: " ++ e := by
  unfold analyze_content analyze_contentC
  rw [h]

lemma analyze_content_congr {svc svc2 : PyStr → SvcResult} {text prompt : PyStr}
    (h : svc (text ++ prompt) = svc2 (text ++ prompt)) :
    analyze_content svc text prompt = analyze_content svc2 text prompt := by
  unfold analyze_content analyze_contentC
  rw [h]

lemma extract_text_ne_nil (x : Except PyStr (List PyStr)) :
    extract_text_from_pdf x ≠ [] := by
  cases x with
  | error e =>
    simp only [extract_text_from_pdf]
    intro h
    exact absurd (List.append_eq_nil.mp h).1 (by decide)
  | ok pages =>
    simp only [extract_text_from_pdf]
    by_cases h : strip (concatPages pages) = []
    · rw [if_pos h]
      decide
    · rw [if_neg h]
      intro hc
      exact h (by rw [hc]; rfl)

lemma endsWith_csv_not_pdf {s : PyStr} (h : endsWithP s (pys ".csv") = true) :
    endsWithP s (pys ".pdf") = false := by
  simp only [endsWithP, decide_eq_true_eq] at h
  simp only [endsWithP, decide_eq_false_iff_not]
  intro hc
  rw [show (pys ".pdf").length = (pys ".csv").length from by decide] at hc
  rw [h] at hc
  exact absurd hc (by decide)

lemma extractPhase_pdf {f : UploadedFile}
    (h : endsWithP f.name (pys ".pdf") = true) :
    extractPhase f = .ok (some (extract_text_from_pdf f.pdfExtract)) := by
  simp [extractPhase, h]

lemma extractPhase_csv_err {f : UploadedFile} {e : PyStr}
    (hcsv : endsWithP f.name (pys ".csv") = true) (hp : f.csvParse = .error e) :
    extractPhase f = .error e := by
  simp [extractPhase, endsWith_csv_not_pdf hcsv, hcsv, hp]

lemma extractPhase_csv_empty {f : UploadedFile} {t : CsvTable}
    (hcsv : endsWithP f.name (pys ".csv") = true) (hp : f.csvParse = .ok t)
    (he : t.isEmpty = true) :
    extractPhase f = .error (pys "CSV file is empty.") := by
  simp [extractPhase, endsWith_csv_not_pdf hcsv, hcsv, hp, he]

lemma extractPhase_csv_ok {f : UploadedFile} {t : CsvTable}
    (hcsv : endsWithP f.name (pys ".csv") = true) (hp : f.csvParse = .ok t)
    (he : t.isEmpty = false) :
    extractPhase f = .ok (some t.toStr) := by
  simp [extractPhase, endsWith_csv_not_pdf hcsv, hcsv, hp, he]

lemma fileOutcome_pdf (svc : PyStr → SvcResult) {f : UploadedFile}
    (h : endsWithP f.name (pys ".pdf") = true) :
    fileOutcome svc f =
      .analyzed (analyzeDocument svc (extract_text_from_pdf f.pdfExtract)) := by
  simp only [fileOutcome, processFile, extractPhase_pdf h]
  rw [if_neg (extract_text_ne_nil f.pdfExtract)]
  rfl

lemma fileOutcome_of_extract_err {svc : PyStr → SvcResult} {f : UploadedFile}
    {e : PyStr} (h : extractPhase f = .error e) :
    fileOutcome svc f = .errorShown e := by
  simp [fileOutcome, processFile, h]

lemma fileOutcome_text (svc : PyStr → SvcResult) {f : UploadedFile} {text : PyStr}
    (h : extractPhase f = .ok (some text)) (ht : text ≠ []) :
    fileOutcome svc f = .analyzed (analyzeDocument svc text) := by
  simp only [fileOutcome, processFile, h]
  rw [if_neg ht]
  rfl

lemma processFile_eq (svc : PyStr → SvcResult) (g : GroupRecommendations)
    (f : UploadedFile) :
    processFile svc g f = (fileOutcome svc f, applyOutcome g (fileOutcome svc f)) := by
  simp only [processFile, fileOutcome]
  cases h : extractPhase f with
  | error e => simp [applyOutcome]
  | ok o =>
    cases o with
    | none => simp [applyOutcome]
    | some text =>
      by_cases ht : text = []
      · simp [ht, applyOutcome]
      · simp [ht, applyOutcome]

lemma foldl_stepBatch_spec (svc : PyStr → SvcResult) :
    ∀ (files : List UploadedFile) (os : List Outcome) (g : GroupRecommendations),
    files.foldl (stepBatch svc) (os, g) =
      (os ++ files.map (fileOutcome svc),
       (files.map (fileOutcome svc)).foldl applyOutcome g) := by
  intro files
  induction files with
  | nil =>
    intro os g
    simp
  | cons f t ih =>
    intro os g
    simp only [List.foldl_cons, List.map_cons]
    rw [stepBatch, processFile_eq]
    rw [ih]
    simp

lemma runBatch_outcomes (svc : PyStr → SvcResult) (files : List UploadedFile) :
    (runBatch svc files).1 = files.map (fileOutcome svc) := by
  rw [runBatch, foldl_stepBatch_spec]
  simp

lemma runBatch_agg (svc : PyStr → SvcResult) (files : List UploadedFile) :
    (runBatch svc files).2 =
      (files.map (fileOutcome svc)).foldl applyOutcome emptyGroup := by
  rw [runBatch, foldl_stepBatch_spec]

lemma foldl_applyOutcome_lengths (os : List Outcome) : ∀ g : GroupRecommendations,
    ((os.foldl applyOutcome g).medications).length =
      g.medications.length + (os.filter isAnalyzedB).length ∧
    ((os.foldl applyOutcome g).supplements).length =
      g.supplements.length + (os.filter isAnalyzedB).length ∧
    ((os.foldl applyOutcome g).activities).length =
      g.activities.length + (os.filter isAnalyzedB).length := by
  induction os with
  | nil =>
    intro g
    simp
  | cons o t ih =>
    intro g
    rw [List.foldl_cons]
    obtain ⟨ih1, ih2, ih3⟩ := ih (applyOutcome g o)
    rw [ih1, ih2, ih3]
    cases o with
    | analyzed r =>
      have hm : (applyOutcome g (Outcome.analyzed r)).medications
          = g.medications ++ [r.medications] := rfl
      have hs : (applyOutcome g (Outcome.analyzed r)).supplements
          = g.supplements ++ [r.supplements] := rfl
      have ha : (applyOutcome g (Outcome.analyzed r)).activities
          = g.activities ++ [r.activities] := rfl
      rw [hm, hs, ha]
      have hf : (List.filter isAnalyzedB (Outcome.analyzed r :: t)).length
          = (List.filter isAnalyzedB t).length + 1 := by
        simp [List.filter_cons, isAnalyzedB]
      rw [hf]
      refine ⟨?_, ?_, ?_⟩ <;> rw [List.length_append, List.length_singleton] <;> omega
    | errorShown m =>
      have hg : applyOutcome g (Outcome.errorShown m) = g := rfl
      rw [hg]
      have hf : List.filter isAnalyzedB (Outcome.errorShown m :: t)
          = List.filter isAnalyzedB t := by
        simp [List.filter_cons, isAnalyzedB]
      rw [hf]
      exact ⟨rfl, rfl, rfl⟩
    | skipped =>
      have hg : applyOutcome g Outcome.skipped = g := rfl
      rw [hg]
      have hf : List.filter isAnalyzedB (Outcome.skipped :: t)
          = List.filter isAnalyzedB t := by
        simp [List.filter_cons, isAnalyzedB]
      rw [hf]
      exact ⟨rfl, rfl, rfl⟩

/-! ### Claim theorems -/

/-- Claim C1 (refuted by the code; the spec states the intended behavior):
a document whose text extraction fails is supposed to contribute zero
entries to every GroupAggregate field, but `extract_text_from_pdf` returns
its error message as an ordinary truthy string, so the `if pdf_text:`
guard passes, the error message itself is analyzed, and the document
contributes one entry to each list field and the sanitized answers to the
set fields.  Evaluated here on a one-file batch whose PDF extraction
raises `boom`, with a stub service answering `X` to every prompt. -/
theorem c1_extraction_failure_still_folded :
    extract_text_from_pdf badPdfFile.pdfExtract
      = pys "Error extracting text from PDF: boom" ∧
    (runBatch svcX [badPdfFile]).2.medications = [pys "X"] ∧
    (runBatch svcX [badPdfFile]).2.supplements = [pys "X"] ∧
    (runBatch svcX [badPdfFile]).2.activities = [pys "X"] ∧
    (runBatch svcX [badPdfFile]).2.common_abnormalities = {pys "X"} ∧
    (runBatch svcX [badPdfFile]).1 =
      [.analyzed (analyzeDocument svcX
        (pys "Error extracting text from PDF: boom"))] := by
  decide

/-- Claim C2: the batch loop yields exactly one outcome per uploaded file,
in input order, no outcome is silently skipped (given the uploader's
`.pdf`/`.csv` name restriction and that pandas renders non-empty frames to
non-empty strings), and the final aggregate is exactly the fold of the
success (`analyzed`) outcomes — `applyOutcome` leaves the aggregate
untouched on every non-`analyzed` outcome. -/
theorem c2_batch_outcomes_complete (svc : PyStr → SvcResult)
    (files : List UploadedFile)
    (hnames : ∀ f ∈ files,
      endsWithP f.name (pys ".pdf") = true ∨ endsWithP f.name (pys ".csv") = true)
    (hcsv : ∀ f ∈ files, csvToStrOkB f.csvParse = true) :
    (runBatch svc files).1.length = files.length ∧
    (runBatch svc files).1 = files.map (fileOutcome svc) ∧
    (∀ o ∈ (runBatch svc files).1, o ≠ Outcome.skipped) ∧
    (runBatch svc files).2 = ((runBatch svc files).1).foldl applyOutcome emptyGroup := by
  have ho := runBatch_outcomes svc files
  refine ⟨by rw [ho, List.length_map], ho, ?_, by rw [runBatch_agg, ho]⟩
  intro o hmem
  rw [ho] at hmem
  obtain ⟨f, hf, rfl⟩ := List.mem_map.mp hmem
  rcases hnames f hf with hpdf | hc
  · rw [fileOutcome_pdf svc hpdf]
    simp
  · cases hp : f.csvParse with
    | error e =>
      rw [fileOutcome_of_extract_err (extractPhase_csv_err hc hp)]
      simp
    | ok t =>
      cases ht : t.isEmpty with
      | true =>
        rw [fileOutcome_of_extract_err (extractPhase_csv_empty hc hp ht)]
        simp
      | false =>
        have hne : t.toStr ≠ [] := by
          have := hcsv f hf
          rw [hp] at this
          simp only [csvToStrOkB] at this
          simp only [ht, Bool.false_or, Bool.not_eq_true'] at this
          exact fun hnil => by rw [hnil] at this; exact absurd this (by decide)
        rw [fileOutcome_text svc (extractPhase_csv_ok hc hp ht) hne]
        simp

/-- Witness for C2 at a concrete two-file batch. -/
theorem c2_batch_outcomes_complete_witness :
    (runBatch svcX [goodPdfFile, emptyCsvFile]).1.length
      = [goodPdfFile, emptyCsvFile].length :=
  (c2_batch_outcomes_complete svcX [goodPdfFile, emptyCsvFile]
    (by decide) (by decide)).1

/-- Claim C3 counterexample: on the whitespace-only text `" "` the
analyzer does call the external service (five prompts are sent, one per
query) and returns the service's answer rather than an
empty-input-failure entry, refuting the claim that empty or
whitespace-only text yields failure-marked entries without any call. -/
theorem c3_counterexample :
    strip (pys " ") = [] ∧
    (analyzeDocumentCalls svcX (pys " ")).length = 5 ∧
    (analyzeDocument svcX (pys " ")).medications = pys "X" := by
  decide

/-- Claim C3 amended: `analyze_content` has no empty-input guard — for
every text, empty or whitespace-only included, analyzing a document sends
exactly the five `text + prompt` strings to the service; the only
empty-input handling is the batch page's `if pdf_text:` truthiness check,
which skips analysis of a falsy extracted text entirely, producing no
entries and no failure marks. -/
theorem c3_amended_always_calls :
    (∀ svc text, analyzeDocumentCalls svc text =
      [text ++ promptAbnormalities, text ++ promptConditions,
       text ++ promptMedications, text ++ promptSupplements,
       text ++ promptActivities]) ∧
    (∀ svc g f, extractPhase f = .ok (some []) →
      processFile svc g f = (.skipped, g)) := by
  constructor
  · intro svc text
    rfl
  · intro svc g f h
    simp [processFile, h]

/-- Witness for the amended C3 at a concrete file with falsy text. -/
theorem c3_amended_witness :
    processFile svcX emptyGroup blankCsvFile = (.skipped, emptyGroup) :=
  c3_amended_always_calls.2 svcX emptyGroup blankCsvFile (by decide)

/-- Claim C4 counterexample: `sanitize_response` does not return a set in
which duplicates collapse — on `"a,a"` it returns the two-element list
`["a", "a"]`, which has a duplicate. -/
theorem c4_counterexample :
    sanitize_response (.pstr (pys "a,a")) = [pys "a", pys "a"] ∧
    ¬ (sanitize_response (.pstr (pys "a,a"))).Nodup := by
  decide

/-- Claim C4 amended: the sanitizer splits on literal commas, trims each
segment, discards segments that are empty after trimming, and returns the
result as a *list* in segment order with duplicates preserved (every
element is trimmed, non-empty and comma-free; collapsing into a set
happens only when the caller updates the aggregate's set fields); on
`"A, b ,C,,  "` it returns `["A", "b", "C"]`, whose element set is
`{"A", "b", "C"}`. -/
theorem c4_amended_sanitize_list :
    (∀ s x, x ∈ sanitize_response (.pstr s) →
      strip x = x ∧ x ≠ [] ∧ ',' ∉ x) ∧
    (∀ s x, x ∈ sanitize_response (.pstr s) ↔
      ∃ seg ∈ splitComma s, strip seg ≠ [] ∧ strip seg = x) ∧
    sanitize_response (.pstr (pys "A, b ,C,,  ")) = [pys "A", pys "b", pys "C"] := by
  refine ⟨fun s x hx => mem_sanitize hx, fun s x => ?_, by decide⟩
  rw [sanitize_eq, List.mem_filterMap]
  constructor
  · rintro ⟨item, hitem, hf⟩
    by_cases hs : strip item = []
    · rw [if_pos hs] at hf
      exact absurd hf (by simp)
    · rw [if_neg hs] at hf
      injection hf with h'
      exact ⟨item, hitem, hs, h'⟩
  · rintro ⟨seg, hseg, hs, hx⟩
    exact ⟨seg, hseg, by rw [if_neg hs, hx]⟩

/-- Witness for the amended C4 at a concrete input and element. -/
theorem c4_amended_witness :
    strip (pys "A") = pys "A" ∧ pys "A" ≠ [] ∧ ',' ∉ pys "A" :=
  c4_amended_sanitize_list.1 (pys "A, b") (pys "A") (by decide)

/-- Claim C5: on every non-string input `sanitize_response` returns the
empty collection, and (being a total function in this embedding, matching
the source's type test) it raises no exception. -/
theorem c5_nonstring_empty (v : PyVal) (h : ∀ s, v ≠ PyVal.pstr s) :
    sanitize_response v = [] := by
  cases v with
  | pstr s => exact absurd rfl (h s)
  | nonStr t => rfl

/-- Witness for C5 at a concrete non-string value. -/
theorem c5_nonstring_empty_witness : sanitize_response (PyVal.nonStr 0) = [] :=
  c5_nonstring_empty (PyVal.nonStr 0) (fun _ h => PyVal.noConfusion h)

/-- Claim C6: joining the sanitizer's output with commas and sanitizing
again returns the sanitizer's output unchanged (here proved as equality
of the returned lists, which is stronger than the claimed set equality). -/
theorem c6_sanitize_roundtrip (s : PyStr) :
    sanitize_response (.pstr (joinComma (sanitize_response (.pstr s)))) =
      sanitize_response (.pstr s) := by
  by_cases hl : sanitize_response (.pstr s) = []
  · rw [hl]
    rfl
  · have hnc : ∀ x ∈ sanitize_response (.pstr s), ',' ∉ x :=
      fun x hx => (mem_sanitize hx).2.2
    rw [sanitize_eq (joinComma (sanitize_response (.pstr s)))]
    rw [splitComma_joinComma hl hnc]
    exact filterMap_id_of (fun x hx => by
      obtain ⟨h1, h2, _⟩ := mem_sanitize hx
      rw [h1, if_neg h2])

/-- Claim C7: the Document Analyzer is total (a complete result with one
entry per query, each equal to its own `analyze_content` call), every
service exception is captured as a failure-marked entry string rather
than propagated, and each entry depends only on the service's response to
its own query's prompt, so one query's failure cannot affect the others. -/
theorem c7_analyzer_total_independent (svc : PyStr → SvcResult) (text : PyStr) :
    (∀ q : Query, (analyzeDocument svc text).entry q
      = analyze_content svc text q.prompt) ∧
    (∀ q e, svc (text ++ q.prompt) = SvcResult.exn e →
      (analyzeDocument svc text).entry q = pys "Error during analysis: " ++ e) ∧
    (∀ svc2 q, svc (text ++ q.prompt) = svc2 (text ++ q.prompt) →
      (analyzeDocument svc text).entry q = (analyzeDocument svc2 text).entry q) := by
  refine ⟨entry_eq svc text, ?_, ?_⟩
  · intro q e h
    rw [entry_eq]
    exact analyze_content_exn h
  · intro svc2 q h
    rw [entry_eq, entry_eq]
    exact analyze_content_congr h

/-- Witness for C7 at concrete services and text. -/
theorem c7_analyzer_witness :
    (analyzeDocument svcErr (pys "T")).entry Query.medications
      = pys "Error during analysis: " ++ pys "boom" ∧
    (analyzeDocument svcErr (pys "T")).entry Query.abnormalities
      = analyze_content svcErr (pys "T") Query.abnormalities.prompt ∧
    (analyzeDocument svcX (pys "T")).entry Query.conditions
      = (analyzeDocument (fun _ => SvcResult.ok (pys "X")) (pys "T")).entry
          Query.conditions :=
  ⟨(c7_analyzer_total_independent svcErr (pys "T")).2.1
      Query.medications (pys "boom") rfl,
   (c7_analyzer_total_independent svcErr (pys "T")).1 Query.abnormalities,
   (c7_analyzer_total_independent svcX (pys "T")).2.2
      (fun _ => SvcResult.ok (pys "X")) Query.conditions rfl⟩

/-- Claim C8: each fold of one analyzed document is monotonic and exact —
the two set fields only grow and each of the three list fields grows by
exactly the one raw appended answer (failure-marker strings included,
appended as-is) — and after any batch the length of each list field
equals the number of analyzed (success) outcomes. -/
theorem c8_fold_monotone_exact :
    (∀ (g : GroupRecommendations) (abn cond med sup act : PyStr),
      g.common_abnormalities ⊆ (foldDoc g abn cond med sup act).common_abnormalities ∧
      g.common_conditions ⊆ (foldDoc g abn cond med sup act).common_conditions ∧
      (foldDoc g abn cond med sup act).medications = g.medications ++ [med] ∧
      (foldDoc g abn cond med sup act).supplements = g.supplements ++ [sup] ∧
      (foldDoc g abn cond med sup act).activities = g.activities ++ [act]) ∧
    (∀ (svc : PyStr → SvcResult) (files : List UploadedFile),
      ((runBatch svc files).2.medications).length
        = ((runBatch svc files).1.filter isAnalyzedB).length ∧
      ((runBatch svc files).2.supplements).length
        = ((runBatch svc files).1.filter isAnalyzedB).length ∧
      ((runBatch svc files).2.activities).length
        = ((runBatch svc files).1.filter isAnalyzedB).length) := by
  constructor
  · intro g abn cond med sup act
    exact ⟨Finset.subset_union_left, Finset.subset_union_left, rfl, rfl, rfl⟩
  · intro svc files
    rw [runBatch_agg, runBatch_outcomes]
    have h := foldl_applyOutcome_lengths (files.map (fileOutcome svc)) emptyGroup
    simpa [emptyGroup] using h

/-- Claim C9: `extract_text_from_pdf` is total (no exception escapes) and
returns either the concatenated page text, whose trimmed form is
non-empty, or an ordinary non-empty (hence truthy) string that is the
fixed error text followed by the exception message — a plain string,
indistinguishable from extracted text at the type level. -/
theorem c9_extract_never_raises (x : Except PyStr (List PyStr)) :
    (∃ pages, x = Except.ok pages ∧
      extract_text_from_pdf x = concatPages pages ∧
      strip (extract_text_from_pdf x) ≠ []) ∨
    ((∃ e, extract_text_from_pdf x = pys "Error extracting text from PDF: " ++ e) ∧
      extract_text_from_pdf x ≠ []) := by
  cases x with
  | error e =>
    right
    exact ⟨⟨e, rfl⟩, extract_text_ne_nil _⟩
  | ok pages =>
    by_cases h : strip (concatPages pages) = []
    · right
      refine ⟨⟨pys "No readable text found in the PDF.", ?_⟩, extract_text_ne_nil _⟩
      simp only [extract_text_from_pdf, if_pos h]
      decide
    · left
      refine ⟨pages, rfl, ?_, ?_⟩
      · simp [extract_text_from_pdf, h]
      · simp only [extract_text_from_pdf, if_neg h]
        exact h

/-- Claim C10: a CSV file whose parsed contents are empty raises
`ValueError("CSV file is empty.")`, which the per-file handler catches:
that file contributes exactly one error outcome and nothing to any
aggregate field, and the remaining files of the batch are processed
exactly as they would be without it. -/
theorem c10_empty_csv_isolated (svc : PyStr → SvcResult)
    (pre post : List UploadedFile) (f : UploadedFile) (t : CsvTable)
    (hcsv : endsWithP f.name (pys ".csv") = true)
    (hp : f.csvParse = Except.ok t) (he : t.isEmpty = true) :
    (runBatch svc (pre ++ f :: post)).1 =
      pre.map (fileOutcome svc) ++ Outcome.errorShown (pys "CSV file is empty.") ::
        post.map (fileOutcome svc) ∧
    (runBatch svc (pre ++ f :: post)).2 = (runBatch svc (pre ++ post)).2 := by
  have hout : fileOutcome svc f = .errorShown (pys "CSV file is empty.") :=
    fileOutcome_of_extract_err (extractPhase_csv_empty hcsv hp he)
  constructor
  · rw [runBatch_outcomes, List.map_append, List.map_cons, hout]
  · rw [runBatch_agg, runBatch_agg, List.map_append, List.map_cons, hout,
      List.map_append, List.foldl_append, List.foldl_append, List.foldl_cons]
    rfl

/-- Witness for C10 at a concrete three-file batch with the empty CSV in
the middle. -/
theorem c10_empty_csv_isolated_witness :
    (runBatch svcX ([goodPdfFile] ++ emptyCsvFile :: [goodPdfFile])).2
      = (runBatch svcX ([goodPdfFile] ++ [goodPdfFile])).2 :=
  (c10_empty_csv_isolated svcX [goodPdfFile] [goodPdfFile] emptyCsvFile
    ⟨true, pys "c"⟩ (by decide) (by decide) rfl).2

end HealthAI
